import Mathlib

/-!
Verification of django-easy-icons against its specification.

The development shallowly embeds the code of `src/easy_icons/renderers.py`
(module-level functions `_attrs`, `_svg_handler`, `sprites`, `provider`,
`svg`, `icon`) and of the template tag in
`src/easy_icons/templatetags/easy_icons.py`, together with the Django
collaborator `django.forms.utils.flatatt` that both call.

Python dictionaries are embedded as insertion-ordered association lists
(`AttrList`); Python attribute values (strings, booleans, `None`) as the
inductive `AttrVal`; code that can raise as `Except`-valued functions; the
template-loading collaborator `render_to_string` as an explicit environment
`String → Option String` (`none` embeds `TemplateDoesNotExist`).

The class-based modules exercised by the repository's test-suite
(`easy_icons.base`, `easy_icons.exceptions`, `easy_icons.utils` and the
class renderers `SvgRenderer` / `ProviderRenderer` / `SpritesRenderer`)
are not present in the source tree; the parts of those modules that the
specification describes are modelled from the specification's words in the
`SpecModel` namespace, each marked `Modelled from the spec:`.
-/

set_option autoImplicit false

namespace EasyIcons

/-- A Python attribute value as used by the icon library: a string, a
boolean presence flag, or `None`. -/
inductive AttrVal where
  | str (s : String)
  | bool (b : Bool)
  | null
  deriving DecidableEq, Repr

/-- An insertion-ordered association list embedding a Python `dict` whose
keys are attribute names. -/
abbrev AttrList := List (String × AttrVal)

/-- Python truthiness of an optional attribute value, as used by
`kwargs.get("defaults")` in `_attrs`: absent keys, `False`, `None` and the
empty string are falsy. -/
def pyTruthy : Option AttrVal → Bool
  | Option.none => false
  | some (.str s) => !(s == "")
  | some (.bool b) => b
  | some .null => false

/-- Python `str()` of an attribute value, as produced by f-string
interpolation. -/
def pyStr : AttrVal → String
  | .str s => s
  | .bool true => "True"
  | .bool false => "False"
  | .null => "None"

/-- Python `dict.update`: keys of `d₂` replace same-named keys of `d₁` in
place, keys new to `d₁` are appended in the order of `d₂`. -/
def dictUpdate (d₁ d₂ : AttrList) : AttrList :=
  d₁.map (fun p => (p.1, ((d₂.lookup p.1).getD p.2))) ++
    d₂.filter (fun p => (d₁.lookup p.1).isNone)

/-- Python `dict.pop(k, default)`, restricted to its removal effect. -/
def removeKey (k : String) (d : AttrList) : AttrList :=
  d.filter (fun p => !(p.1 == k))

/-! ## The Django collaborator `flatatt`

`django.forms.utils.flatatt` separates boolean attributes from key/value
attributes, drops `False` and `None` values, sorts each group, and renders
`key="value"` pairs (HTML-escaped) and bare boolean attribute names, each
preceded by a single space. -/

/-- HTML escaping applied by Django's `conditional_escape` to every field
interpolated by `format_html_join`. -/
def htmlEscapeChar (c : Char) : List Char :=
  if c = '&' then "&amp;".toList
  else if c = '<' then "&lt;".toList
  else if c = '>' then "&gt;".toList
  else if c = '"' then "&quot;".toList
  else if c = '\'' then "&#x27;".toList
  else [c]

/-- HTML-escape a string (Django `escape`). -/
def htmlEscape (s : String) : String :=
  String.mk (s.toList.flatMap htmlEscapeChar)

/-- Boolean lexicographic order on strings by code point, embedding
Python's `<` on `str` as used by `sorted`. -/
def charListLe : List Char → List Char → Bool
  | [], _ => true
  | _ :: _, [] => false
  | a :: as, b :: bs => if a < b then true else if b < a then false else charListLe as bs

/-- Insert into a sorted list (stable insertion sort step). -/
def insertB {α : Type} (le : α → α → Bool) (x : α) : List α → List α
  | [] => [x]
  | y :: ys => if le x y then x :: y :: ys else y :: insertB le x ys

/-- Stable insertion sort embedding Python's `sorted`. -/
def sortB {α : Type} (le : α → α → Bool) : List α → List α
  | [] => []
  | x :: xs => insertB le x (sortB le xs)

/-- Order on key/value pairs used by `sorted(key_value_attrs)`: compare
keys first (keys of a `dict` are distinct, so the value comparison of the
Python tuple order is never reached). -/
def kvLe (p q : String × String) : Bool :=
  if p.1 == q.1 then charListLe p.2.toList q.2.toList
  else charListLe p.1.toList q.1.toList

/-- Order on attribute names used by `sorted(boolean_attrs)`. -/
def keyLe (a b : String) : Bool := charListLe a.toList b.toList

/-- The key/value attributes retained by `flatatt`: entries whose value is
a string (booleans are diverted, `None` is dropped). -/
def kvAttrs (attrs : AttrList) : List (String × String) :=
  attrs.filterMap (fun p => match p.2 with
    | .str s => some (p.1, s)
    | _ => Option.none)

/-- The boolean attributes retained by `flatatt`: entries whose value is
literally `True`. -/
def boolAttrs (attrs : AttrList) : List String :=
  attrs.filterMap (fun p => match p.2 with
    | .bool true => some p.1
    | _ => Option.none)

/-- One rendered fragment of `flatatt` output: a `key="value"` pair or a
bare boolean attribute name. -/
inductive Entry where
  | kv (key value : String)
  | bare (key : String)
  deriving DecidableEq, Repr

/-- The attribute name an output fragment renders. -/
def Entry.key : Entry → String
  | .kv k _ => k
  | .bare k => k

/-- The ordered list of output fragments of `flatatt`: sorted key/value
pairs first, then sorted bare boolean names. -/
def flatattEntries (attrs : AttrList) : List Entry :=
  (sortB kvLe (kvAttrs attrs)).map (fun p => Entry.kv p.1 p.2) ++
    (sortB keyLe (boolAttrs attrs)).map Entry.bare

/-- Render a single fragment, with the leading space and HTML escaping of
`format_html_join("", ' {}="{}"', …)` and `format_html_join("", " {}", …)`. -/
def renderEntry : Entry → String
  | .kv k v => " " ++ htmlEscape k ++ "=\"" ++ htmlEscape v ++ "\""
  | .bare k => " " ++ htmlEscape k

/-- `django.forms.utils.flatatt`, the attribute-string renderer both the
module functions and the template tag delegate to. -/
def flatatt (attrs : AttrList) : String :=
  String.join ((flatattEntries attrs).map renderEntry)

/-! ## Python string primitives used by the embedded code -/

/-- Split at the first occurrence of `pat`, returning the characters before
it and the characters after it, or `none` when `pat` does not occur. -/
def splitFirst (pat : List Char) : List Char → Option (List Char × List Char)
  | [] => if pat = [] then some ([], []) else Option.none
  | c :: rest =>
    if pat.isPrefixOf (c :: rest) then some ([], (c :: rest).drop pat.length)
    else match splitFirst pat rest with
      | some (before, after) => some (c :: before, after)
      | Option.none => Option.none

/-- Python `str.partition(sep)`: the text before the first occurrence of
`sep`, `sep` itself, and the rest; `(s, "", "")` when `sep` is absent. -/
def pyPartition (s sep : String) : String × String × String :=
  match splitFirst sep.toList s.toList with
  | some (before, after) => (String.mk before, sep, String.mk after)
  | Option.none => (s, "", "")

/-- Fuel-driven worker for `pyReplace`: replace leftmost non-overlapping
occurrences of `pat`. -/
def pyReplaceAux (pat rep : List Char) : Nat → List Char → List Char
  | _, [] => []
  | 0, s => s
  | fuel + 1, c :: rest =>
    if pat.isPrefixOf (c :: rest) then
      rep ++ pyReplaceAux pat rep fuel (rest.drop (pat.length - 1))
    else c :: pyReplaceAux pat rep fuel rest

/-- Python `str.replace(pat, rep)`: every non-overlapping occurrence of
`pat`, scanning left to right, is replaced by `rep`. -/
def pyReplace (s pat rep : String) : String :=
  String.mk (pyReplaceAux pat.toList rep.toList s.toList.length s.toList)

/-- Python `str.endswith(suffix)`. -/
def pyEndsWith (s suffix : String) : Bool :=
  suffix.toList.isSuffixOf s.toList

/-- Python `s.split(".")[0]`: the prefix of `s` up to the first `'.'`. -/
def headBeforeDot (s : String) : String :=
  String.mk (s.toList.takeWhile (fun c => !(c = '.')))

/-- The substring relation, for statements about error messages and
rendered markup. -/
def strContains (s pat : String) : Prop :=
  pat.toList <:+: s.toList

instance (s pat : String) : Decidable (strContains s pat) :=
  inferInstanceAs (Decidable (pat.toList <:+: s.toList))

/-! ## The flat module `easy_icons/renderers.py`

The module-level `config` dictionary is embedded as a structure holding the
keys the embedded functions read; `settings.EASY_ICONS` overrides are
already folded in, as in the source's `config.update(...)`. The
`render_to_string` collaborator is an explicit template environment, and
`import_string` failures and `TemplateDoesNotExist` are embedded as
`Except` errors. -/

/-- Decidable equality of `Except` results, for evaluating the embedded
fallible functions on concrete inputs. -/
instance exceptDecEq {ε α : Type} [DecidableEq ε] [DecidableEq α] :
    DecidableEq (Except ε α) := fun x y =>
  match x, y with
  | .ok a, .ok b =>
    if h : a = b then .isTrue (by rw [h])
    else .isFalse (by intro hc; cases hc; exact h rfl)
  | .error a, .error b =>
    if h : a = b then .isTrue (by rw [h])
    else .isFalse (by intro hc; cases hc; exact h rfl)
  | .ok _, .error _ => .isFalse (by intro hc; cases hc)
  | .error _, .ok _ => .isFalse (by intro hc; cases hc)

/-- The template-loading collaborator: template path to file content,
`none` embedding a `TemplateDoesNotExist` outcome. -/
abbrev TemplateEnv := String → Option String

/-- Exceptions that the embedded flat module can surface. -/
inductive PyErr where
  | templateDoesNotExist (path : String)
  | importFailed (rendererName : String)
  deriving DecidableEq, Repr

/-- The module-level `config` dict of `easy_icons/renderers.py`, after the
`settings.EASY_ICONS` update. -/
structure FlatConfig where
  attrs : AttrList
  svg_dir : String := "icons"
  tag : String := "i"
  aliases : List (String × String) := []
  sprite_url : Option String := Option.none
  default_renderer : String := "provider"
  deriving Repr

/-- `_attrs` (renderers.py lines 33-40): the dict handed to `flatatt` — the
raw `kwargs` when `kwargs.get("defaults")` is falsy, otherwise a copy of
`config["attrs"]` updated with `kwargs`. -/
def attrsDict (cfg : FlatConfig) (kwargs : AttrList) : AttrList :=
  if pyTruthy (kwargs.lookup "defaults") then dictUpdate cfg.attrs kwargs
  else kwargs

/-- `_attrs` (renderers.py lines 33-40): merges the defaults with the
user-provided attributes and renders them via `flatatt`. -/
def pyAttrs (cfg : FlatConfig) (kwargs : AttrList) : String :=
  flatatt (attrsDict cfg kwargs)

/-- `_attrs`, with the caller-visible after-state of `config["attrs"]` made
explicit: the source copies the default dict (`config.get("attrs").copy()`)
and updates only the copy, so the configured mapping is returned
unchanged. -/
def pyAttrsRun (cfg : FlatConfig) (kwargs : AttrList) : String × AttrList :=
  (pyAttrs cfg kwargs, cfg.attrs)

/-- `_svg_handler` (renderers.py lines 43-46): splices the attribute string
after the first `<svg` of `svg_str`. -/
def svgHandler (cfg : FlatConfig) (svg_str : String) (kwargs : AttrList) : String :=
  let p := pyPartition svg_str "<svg"
  p.1 ++ p.2.1 ++ pyAttrs cfg kwargs ++ " " ++ p.2.2

/-- `sprites` (renderers.py lines 49-52): builds
`<svg><use xlink:href="{sprite_url}#{name}" /></svg>` (a `None` URL is
interpolated as the text `None`) and hands it to `_svg_handler`. -/
def pySprites (cfg : FlatConfig) (name : String) (kwargs : AttrList) : String :=
  let url := match cfg.sprite_url with
    | some u => u
    | Option.none => "None"
  svgHandler cfg ("<svg><use xlink:href=\"" ++ url ++ "#" ++ name ++ "\" /></svg>") kwargs

/-- `svg` (renderers.py lines 68-71): loads `{svg_dir}/{name}.svg` through
the template loader and hands the content to `_svg_handler`. -/
def pySvg (cfg : FlatConfig) (env : TemplateEnv) (name : String) (kwargs : AttrList) :
    Except PyErr String :=
  match env (cfg.svg_dir ++ "/" ++ name ++ ".svg") with
  | some svg_str => .ok (svgHandler cfg svg_str kwargs)
  | Option.none => .error (.templateDoesNotExist (cfg.svg_dir ++ "/" ++ name ++ ".svg"))

/-- `provider` (renderers.py lines 55-65): a name ending in `.svg` is
delegated to `svg` with every occurrence of `.svg` removed
(`name.replace(".svg", "")`); otherwise emits
`<{tag} class='{name} {extra_class}'{_attrs(**kwargs)}></{tag}>` with `tag`
and `class` popped from the kwargs. -/
def pyProvider (cfg : FlatConfig) (env : TemplateEnv) (name : String) (kwargs : AttrList) :
    Except PyErr String :=
  if pyEndsWith name ".svg" then pySvg cfg env (pyReplace name ".svg" "") kwargs
  else
    let tag := match kwargs.lookup "tag" with
      | some v => pyStr v
      | Option.none => cfg.tag
    let extraClass := match kwargs.lookup "class" with
      | some v => pyStr v
      | Option.none => ""
    let rest := removeKey "class" (removeKey "tag" kwargs)
    .ok ("<" ++ tag ++ " class='" ++ name ++ " " ++ extraClass ++ "'" ++
      pyAttrs cfg rest ++ "></" ++ tag ++ ">")

/-- `icon` (renderers.py lines 74-83): resolves aliases, pops the
`renderer` kwarg (defaulting to `config["default_renderer"]`), then
dispatches through `config["renderers"]` — embedded with its three
shipped entries, which import to `sprites`, `provider` and `svg`; any
other name makes `import_string` fail (a settings override replacing the
`renderers` table with custom import paths is outside this embedding). -/
def pyIcon (cfg : FlatConfig) (env : TemplateEnv) (name : String) (kwargs : AttrList) :
    Except PyErr String :=
  let resolved := (cfg.aliases.lookup name).getD name
  let rendererName := match kwargs.lookup "renderer" with
    | some v => pyStr v
    | Option.none => cfg.default_renderer
  let rest := removeKey "renderer" kwargs
  if rendererName = "sprites" then .ok (pySprites cfg resolved rest)
  else if rendererName = "provider" then pyProvider cfg env resolved rest
  else if rendererName = "svg" then pySvg cfg env resolved rest
  else .error (.importFailed rendererName)

/-! ## The template tag `easy_icons/templatetags/easy_icons.py`

The tag reads two optional settings. `getattr(settings, ...)` hands back
the very dict object stored on the settings module, so the tag's
`DEFAULTS.update(kwargs)` (line 28) updates that shared object in place
whenever `easy_icons_DEFAULTS` is configured; the embedding threads the
settings as explicit state to capture this. When the setting is absent the
update hits the freshly built fallback literal and the settings are
untouched. -/

/-- The two settings the template tag reads; `none` means unset, in which
case the tag's fallback defaults apply. -/
structure TTSettings where
  easy_icons_ICONS_DIR : Option String := Option.none
  easy_icons_DEFAULTS : Option AttrList := Option.none
  deriving DecidableEq, Repr

/-- The template tag `icon` (templatetags/easy_icons.py lines 11-33),
returning the rendered markup together with the after-state of the
settings. -/
def templatetagIcon (st : TTSettings) (env : TemplateEnv) (iconArg : String)
    (nodefaults : Bool) (kwargs : AttrList) : Except PyErr String × TTSettings :=
  let dir := st.easy_icons_ICONS_DIR.getD "icons"
  let base := headBeforeDot iconArg
  let path := dir ++ "/" ++ base ++ ".svg"
  if nodefaults then
    (match env path with
      | some s => .ok s
      | Option.none => .error (.templateDoesNotExist path), st)
  else
    let defaults0 := st.easy_icons_DEFAULTS.getD
      [("height", .str "1em"), ("fill", .str "currentColor")]
    let defaults := dictUpdate defaults0 kwargs
    let st' := match st.easy_icons_DEFAULTS with
      | some _ => { st with easy_icons_DEFAULTS := some defaults }
      | Option.none => st
    match env path with
    | Option.none => (.error (.templateDoesNotExist path), st')
    | some svg_str =>
      let p := pyPartition (pyReplace svg_str "\n" "") "><"
      (.ok (p.1 ++ flatatt defaults ++ p.2.1 ++ p.2.2), st')

end EasyIcons

namespace SpecModel

open EasyIcons

/-!  ## Spec-modelled class-based modules

The repository's test-suite imports `easy_icons.base`, `easy_icons.utils`,
`easy_icons.exceptions` and the renderer classes `SvgRenderer`,
`ProviderRenderer` and `SpritesRenderer` from `easy_icons.renderers`; none
of these classes or modules appear in the source tree (the `renderers.py`
present holds only the earlier module-level functions embedded above).
The definitions below are modelled from the specification's words. -/

/-- Per-icon lookup errors of the spec's lookup tier, plus the not-found
condition of the template-loading collaborator, which the inline-SVG
renderer propagates unchanged. -/
inductive RenderError where
  | iconNotFound (msg : String)
  | invalidSvg (msg : String)
  | templateDoesNotExist (path : String)
  deriving DecidableEq, Repr

/-- Configuration-tier errors, always raised and never silenced. -/
inductive ConfigError where
  | missingSpriteUrl (msg : String)
  deriving DecidableEq, Repr

/-- Comma-separated list of the icon names a renderer currently knows,
used in the IconNotFound message. -/
def availableNames (icons : List (String × String)) : String :=
  String.intercalate ", " (icons.map Prod.fst)

/-- The IconNotFound message for `name` missing from `icons` of the
renderer called `rendererName`: it names the renderer and lists the
currently available icon names. -/
def notFoundMsg (rendererName : String) (icons : List (String × String))
    (name : String) : String :=
  "Icon '" ++ name ++ "' not listed in available icons for " ++ rendererName ++
    ". Available icons: " ++ availableNames icons

/-- Modelled from the spec: the name-resolution step of the renderer-set
common contract (`easy_icons.base.BaseRenderer.get_icon`, missing from the
source tree) — "`render` first resolves `name` through the icon-name
mapping — failing with an IconNotFound condition (naming the renderer and,
ideally, listing currently available icon names) if absent". -/
def getIcon (rendererName : String) (icons : List (String × String)) (name : String) :
    Except RenderError String :=
  match icons.lookup name with
  | some resolved => .ok resolved
  | Option.none => .error (.iconNotFound (notFoundMsg rendererName icons name))

/-- Modelled from the spec: the fail-silently handling of the lookup entry
point (`easy_icons.utils.icon`, missing from the source tree) — "an
IconNotFound there either raises or — if fail-silently mode is active —
yields an empty string". `renderBody` is the remainder of the selected
renderer's `render`, applied to the resolved identifier. -/
def iconLookup (failSilently : Bool) (rendererName : String)
    (icons : List (String × String)) (renderBody : String → String)
    (name : String) : Except RenderError String :=
  match getIcon rendererName icons name with
  | .ok resolved => .ok (renderBody resolved)
  | .error e => if failSilently then .ok "" else .error e

/-- Modelled from the spec: the Attribute Builder of the class renderers
(`easy_icons.base.BaseRenderer.build_attrs`, missing from the source
tree) — call-site keys fully replace same-named default keys, unless
`use_defaults=False`, in which case only call-site attributes are used;
the merged mapping is rendered by the collaborator `flatatt`. -/
def buildAttrs (defaultAttrs : AttrList) (useDefaults : Bool) (attrs : AttrList) : String :=
  if useDefaults then flatatt (dictUpdate defaultAttrs attrs) else flatatt attrs

/-- Modelled from the spec: the class-provider renderer
(`easy_icons.renderers.ProviderRenderer`, missing from the source tree),
constructed with a tag (default `i`), an icon-name mapping and a
default-attribute mapping. -/
structure ProviderRenderer where
  tag : String := "i"
  icons : List (String × String) := []
  default_attrs : AttrList := []
  deriving Repr

/-- Modelled from the spec: `ProviderRenderer.render` — emits
`<{tag} class="{resolved_name} {extra_class}" {other_attrs}></{tag}>`,
with `tag` overridable per call and the caller's `class` override appended
after the resolved icon class token, never replacing it. -/
def providerRender (r : ProviderRenderer) (name : String) (useDefaults : Bool)
    (attrs : AttrList) : Except RenderError String :=
  (getIcon "ProviderRenderer" r.icons name).map (fun resolved =>
    let tag := match attrs.lookup "tag" with
      | some v => pyStr v
      | Option.none => r.tag
    let extraClass := match attrs.lookup "class" with
      | some v => pyStr v
      | Option.none => ""
    let rest := removeKey "class" (removeKey "tag" attrs)
    "<" ++ tag ++ " class=\"" ++ resolved ++ " " ++ extraClass ++ "\" " ++
      buildAttrs r.default_attrs useDefaults rest ++ "></" ++ tag ++ ">")

/-- Modelled from the spec: the sprite renderer
(`easy_icons.renderers.SpritesRenderer`, missing from the source tree);
a constructed instance always carries its mandatory sprite URL. -/
structure SpritesRenderer where
  sprite_url : String
  icons : List (String × String) := []
  default_attrs : AttrList := []
  deriving Repr

/-- Modelled from the spec: constructing a sprite renderer —
"`sprite_url` is mandatory at construction (fail with a configuration
error if missing/empty)". -/
def mkSpritesRenderer (spriteUrl : Option String) (icons : List (String × String))
    (defaultAttrs : AttrList) : Except ConfigError SpritesRenderer :=
  match spriteUrl with
  | Option.none =>
    .error (.missingSpriteUrl "SpritesRenderer requires 'sprite_url' keyword argument")
  | some u =>
    if u = "" then
      .error (.missingSpriteUrl "SpritesRenderer requires 'sprite_url' keyword argument")
    else .ok { sprite_url := u, icons := icons, default_attrs := defaultAttrs }

/-- Modelled from the spec: `SpritesRenderer.render` — emits
`<svg {attrs}><use href="{sprite_url}#{resolved_name}"></use></svg>`,
concatenating `sprite_url` with `#` and the resolved name without
inspecting whether the URL already contains a fragment. -/
def spritesRender (r : SpritesRenderer) (name : String) (useDefaults : Bool)
    (attrs : AttrList) : Except RenderError String :=
  (getIcon "SpritesRenderer" r.icons name).map (fun resolved =>
    "<svg " ++ buildAttrs r.default_attrs useDefaults attrs ++ "><use href=\"" ++
      r.sprite_url ++ "#" ++ resolved ++ "\"></use></svg>")

/-- Modelled from the spec: the inline-SVG renderer
(`easy_icons.renderers.SvgRenderer`, missing from the source tree). -/
structure SvgRenderer where
  svg_dir : String := "icons"
  icons : List (String × String) := []
  default_attrs : AttrList := []
  deriving Repr

/-- Executable substring test, embedding Python's `in` on strings. -/
def containsB (s pat : String) : Bool :=
  decide (pat.toList <:+: s.toList)

/-- Modelled from the spec: the attribute-splicing step of the inline-SVG
renderer (`SvgRenderer._inject_svg_attrs`, missing from the source tree) —
splices merged attributes into the opening `<svg …>` tag, preserving any
attributes already present, and "fails with an InvalidSvg condition if no
`<svg` tag is found in the fetched content". -/
def injectSvgAttrs (r : SvgRenderer) (content : String) (useDefaults : Bool)
    (attrs : AttrList) : Except RenderError String :=
  if containsB content "<svg" then
    let p := pyPartition content "<svg"
    .ok (p.1 ++ p.2.1 ++ buildAttrs r.default_attrs useDefaults attrs ++ " " ++ p.2.2)
  else .error (.invalidSvg "No <svg> tag found in SVG content")

/-- Modelled from the spec: `SvgRenderer.render` — resolves the name,
fetches `<svg_dir>/<resolved_name>.svg` through the template-loading
collaborator (propagating its not-found condition unchanged), then splices
the merged attributes. -/
def svgRender (r : SvgRenderer) (env : TemplateEnv) (name : String)
    (useDefaults : Bool) (attrs : AttrList) : Except RenderError String :=
  match getIcon "SvgRenderer" r.icons name with
  | .error e => .error e
  | .ok resolved =>
    let path := r.svg_dir ++ "/" ++ resolved ++ ".svg"
    match env path with
    | Option.none => .error (.templateDoesNotExist path)
    | some content => injectSvgAttrs r content useDefaults attrs

/-! ### The icon registry (`easy_icons.utils`, missing from the source tree) -/

/-- A renderer configuration as the registry sees it: its settings key and
the icon names of its merged icon table. -/
structure RendererConfig where
  name : String
  icons : List (String × String)
  deriving DecidableEq, Repr

/-- Modelled from the spec: the registry build order — "a configuration
literally named \"default\" first, if present, then remaining
configurations in declaration order". -/
def buildOrder (cfgs : List RendererConfig) : List RendererConfig :=
  cfgs.filter (fun c => c.name == "default") ++
    cfgs.filter (fun c => !(c.name == "default"))

/-- The registry state: the name-to-owning-config table and the log of
collisions, each recording the icon name, the winning config and the
shadowed config. -/
structure Registry where
  table : List (String × String)
  collisions : List (String × String × String)
  deriving DecidableEq, Repr

/-- Modelled from the spec: recording one icon name owned by the
configuration named `cname` — a name already present in the table is
logged as a collision, identifying the winning and the shadowed config,
without overwriting; a fresh name is recorded for `cname`. -/
def regStep (cname : String) (st : Registry) (p : String × String) : Registry :=
  match st.table.lookup p.1 with
  | some owner => { st with collisions := st.collisions ++ [(p.1, owner, cname)] }
  | Option.none => { st with table := st.table ++ [(p.1, cname)] }

/-- Modelled from the spec: registering one configuration's icon names —
"recording first-writer-wins; later duplicate names are logged as
collisions but do not overwrite". -/
def registerConfig (st : Registry) (cfg : RendererConfig) : Registry :=
  cfg.icons.foldl (regStep cfg.name) st

/-- Modelled from the spec: `build_icon_registry` — iterates all renderer
configurations in the fixed build order and records first-writer-wins. -/
def buildRegistry (cfgs : List RendererConfig) : Registry :=
  (buildOrder cfgs).foldl registerConfig { table := [], collisions := [] }

end SpecModel

namespace EasyIcons

/-- How many `key="value"` output fragments one attribute value yields. -/
def kvCount : AttrVal → Nat
  | .str _ => 1
  | _ => 0

/-- How many bare boolean output fragments one attribute value yields. -/
def boolCount : AttrVal → Nat
  | .bool true => 1
  | _ => 0

/-- How many output fragments one attribute value yields in total: one for
a string or `True`, none for `False` or `None`. -/
def renderedCount : AttrVal → Nat
  | .str _ => 1
  | .bool true => 1
  | _ => 0

/-! ## Association-list lemmas -/

section AListLemmas

variable {β : Type}

theorem lookup_append_eq (l₁ l₂ : List (String × β)) (k : String) :
    (l₁ ++ l₂).lookup k =
      match l₁.lookup k with
      | some v => some v
      | Option.none => l₂.lookup k := by
  induction l₁ with
  | nil => simp [List.lookup]
  | cons p l₁ ih =>
    obtain ⟨a, b⟩ := p
    by_cases h : k = a
    · simp [List.lookup, h]
    · simpa [List.lookup, beq_false_of_ne h] using ih

theorem lookup_filter_of_keyed_true (pred : String × β → Bool) (l : List (String × β))
    (k : String) (h : ∀ v, pred (k, v) = true) :
    ((l.filter pred).lookup k) = l.lookup k := by
  induction l with
  | nil => rfl
  | cons p l ih =>
    obtain ⟨a, b⟩ := p
    by_cases hk : k = a
    · subst hk
      simp [List.filter_cons, h b, List.lookup]
    · by_cases hp : pred (a, b) = true <;>
        simp [List.filter_cons, hp, List.lookup, beq_false_of_ne hk, ih]

theorem lookup_eq_none_of_not_mem_keys {l : List (String × β)} {k : String}
    (h : k ∉ l.map Prod.fst) : l.lookup k = Option.none := by
  induction l with
  | nil => rfl
  | cons p l ih =>
    simp only [List.map_cons, List.mem_cons] at h
    push_neg at h
    obtain ⟨a, b⟩ := p
    simp only [List.lookup, beq_false_of_ne h.1]
    exact ih h.2

theorem exists_lookup_eq_some_of_mem {l : List (String × β)} {k : String} {v : β}
    (h : (k, v) ∈ l) : ∃ w, l.lookup k = some w := by
  induction l with
  | nil => cases h
  | cons p l ih =>
    obtain ⟨a, b⟩ := p
    rcases List.mem_cons.mp h with heq | hmem
    · cases heq
      exact ⟨v, by simp [List.lookup]⟩
    · by_cases hk : k = a
      · subst hk
        exact ⟨b, by simp [List.lookup]⟩
      · obtain ⟨w, hw⟩ := ih hmem
        exact ⟨w, by simp [List.lookup, beq_false_of_ne hk, hw]⟩

theorem lookup_map_getD (d₂ : AttrList) (d₁ : AttrList) (k : String) :
    ((d₁.map (fun p => (p.1, ((d₂.lookup p.1).getD p.2)))).lookup k)
      = (d₁.lookup k).map (fun b => (d₂.lookup k).getD b) := by
  induction d₁ with
  | nil => rfl
  | cons p l ih =>
    obtain ⟨a, b⟩ := p
    by_cases hk : k = a
    · subst hk
      simp [List.lookup]
    · simpa [List.lookup, beq_false_of_ne hk] using ih

/-- The central merge fact: a key of `d₂` fully replaces a same-named key
of `d₁` in `dictUpdate d₁ d₂`, and keys absent from `d₂` keep their `d₁`
value. -/
theorem lookup_dictUpdate (d₁ d₂ : AttrList) (k : String) :
    (dictUpdate d₁ d₂).lookup k =
      match d₂.lookup k with
      | some v => some v
      | Option.none => d₁.lookup k := by
  unfold dictUpdate
  rw [lookup_append_eq, lookup_map_getD]
  cases hd₁ : d₁.lookup k with
  | none =>
    rw [lookup_filter_of_keyed_true _ _ _ (fun v => by simp [hd₁])]
    cases hd₂ : d₂.lookup k <;> rfl
  | some w =>
    cases hd₂ : d₂.lookup k <;> rfl

theorem removeKey_eq_of_lookup_none {k : String} {l : AttrList}
    (h : l.lookup k = Option.none) : removeKey k l = l := by
  induction l with
  | nil => rfl
  | cons p l ih =>
    obtain ⟨a, b⟩ := p
    by_cases hk : k = a
    · subst hk; simp [List.lookup] at h
    · simp only [List.lookup, beq_false_of_ne hk] at h
      unfold removeKey at ih ⊢
      rw [List.filter_cons]
      have hak : (a == k) = false := beq_false_of_ne (fun hak => hk hak.symm)
      simp [hak, ih h]

end AListLemmas

/-! ## Sorting and counting lemmas for `flatatt` -/

theorem insertB_perm {α : Type} (le : α → α → Bool) (x : α) (l : List α) :
    (insertB le x l).Perm (x :: l) := by
  induction l with
  | nil => exact List.Perm.refl _
  | cons y ys ih =>
    unfold insertB
    by_cases h : le x y = true
    · simp [h]
    · simp only [h, if_false]
      exact (ih.cons y).trans (List.Perm.swap x y ys)

theorem sortB_perm {α : Type} (le : α → α → Bool) (l : List α) :
    (sortB le l).Perm l := by
  induction l with
  | nil => exact List.Perm.refl _
  | cons x xs ih => exact (insertB_perm le x (sortB le xs)).trans (ih.cons x)

/-- Unfolding equations for `kvAttrs` and `boolAttrs` on a cons cell. -/
theorem kvAttrs_cons_str (key s : String) (l : AttrList) :
    kvAttrs ((key, AttrVal.str s) :: l) = (key, s) :: kvAttrs l := rfl

theorem kvAttrs_cons_bool (key : String) (b : Bool) (l : AttrList) :
    kvAttrs ((key, AttrVal.bool b) :: l) = kvAttrs l := by cases b <;> rfl

theorem kvAttrs_cons_null (key : String) (l : AttrList) :
    kvAttrs ((key, AttrVal.null) :: l) = kvAttrs l := rfl

theorem boolAttrs_cons_str (key s : String) (l : AttrList) :
    boolAttrs ((key, AttrVal.str s) :: l) = boolAttrs l := rfl

theorem boolAttrs_cons_true (key : String) (l : AttrList) :
    boolAttrs ((key, AttrVal.bool true) :: l) = key :: boolAttrs l := rfl

theorem boolAttrs_cons_false (key : String) (l : AttrList) :
    boolAttrs ((key, AttrVal.bool false) :: l) = boolAttrs l := rfl

theorem boolAttrs_cons_null (key : String) (l : AttrList) :
    boolAttrs ((key, AttrVal.null) :: l) = boolAttrs l := rfl

/-- Keys with no occurrence in the attribute list contribute no key/value
output fragment. -/
theorem countP_kvAttrs_of_not_mem {a : AttrList} {k : String}
    (h : k ∉ a.map Prod.fst) :
    (kvAttrs a).countP (fun p => p.1 == k) = 0 := by
  induction a with
  | nil => rfl
  | cons p l ih =>
    simp only [List.map_cons, List.mem_cons] at h
    push_neg at h
    obtain ⟨key, v⟩ := p
    have hkey : (key == k) = false := beq_false_of_ne (Ne.symm h.1)
    cases v with
    | str s =>
      rw [kvAttrs_cons_str, List.countP_cons, ih h.2]
      simp [hkey]
    | bool b =>
      rw [kvAttrs_cons_bool]
      exact ih h.2
    | null =>
      rw [kvAttrs_cons_null]
      exact ih h.2

/-- Keys with no occurrence in the attribute list contribute no bare
boolean output fragment. -/
theorem countP_boolAttrs_of_not_mem {a : AttrList} {k : String}
    (h : k ∉ a.map Prod.fst) :
    (boolAttrs a).countP (fun s => s == k) = 0 := by
  induction a with
  | nil => rfl
  | cons p l ih =>
    simp only [List.map_cons, List.mem_cons] at h
    push_neg at h
    obtain ⟨key, v⟩ := p
    have hkey : (key == k) = false := beq_false_of_ne (Ne.symm h.1)
    cases v with
    | str s =>
      rw [boolAttrs_cons_str]
      exact ih h.2
    | bool b =>
      cases b with
      | true =>
        rw [boolAttrs_cons_true, List.countP_cons, ih h.2]
        simp [hkey]
      | false =>
        rw [boolAttrs_cons_false]
        exact ih h.2
    | null =>
      rw [boolAttrs_cons_null]
      exact ih h.2

/-- With distinct keys, the entry `(k, v)` produces exactly one key/value
fragment when `v` is a string, and none otherwise. -/
theorem countP_kvAttrs {a : AttrList} {k : String} {v : AttrVal}
    (hnd : (a.map Prod.fst).Nodup) (hm : (k, v) ∈ a) :
    (kvAttrs a).countP (fun p => p.1 == k) = kvCount v := by
  induction a with
  | nil => cases hm
  | cons p l ih =>
    simp only [List.map_cons, List.nodup_cons] at hnd
    obtain ⟨key, w⟩ := p
    rcases List.mem_cons.mp hm with heq | hmem
    · cases heq
      cases v with
      | str s =>
        rw [kvAttrs_cons_str, List.countP_cons, countP_kvAttrs_of_not_mem hnd.1]
        simp [kvCount]
      | bool b =>
        rw [kvAttrs_cons_bool, countP_kvAttrs_of_not_mem hnd.1]
        rfl
      | null =>
        rw [kvAttrs_cons_null, countP_kvAttrs_of_not_mem hnd.1]
        rfl
    · have hkey : (key == k) = false := by
        refine beq_false_of_ne (fun hkk => hnd.1 ?_)
        exact hkk ▸ List.mem_map.mpr ⟨(k, v), hmem, rfl⟩
      cases w with
      | str s =>
        rw [kvAttrs_cons_str, List.countP_cons, ih hnd.2 hmem]
        simp [hkey]
      | bool b =>
        rw [kvAttrs_cons_bool]
        exact ih hnd.2 hmem
      | null =>
        rw [kvAttrs_cons_null]
        exact ih hnd.2 hmem

/-- With distinct keys, the entry `(k, v)` produces exactly one bare
boolean fragment when `v` is `True`, and none otherwise. -/
theorem countP_boolAttrs {a : AttrList} {k : String} {v : AttrVal}
    (hnd : (a.map Prod.fst).Nodup) (hm : (k, v) ∈ a) :
    (boolAttrs a).countP (fun s => s == k) = boolCount v := by
  induction a with
  | nil => cases hm
  | cons p l ih =>
    simp only [List.map_cons, List.nodup_cons] at hnd
    obtain ⟨key, w⟩ := p
    rcases List.mem_cons.mp hm with heq | hmem
    · cases heq
      cases v with
      | str s =>
        rw [boolAttrs_cons_str, countP_boolAttrs_of_not_mem hnd.1]
        rfl
      | bool b =>
        cases b with
        | true =>
          rw [boolAttrs_cons_true, List.countP_cons, countP_boolAttrs_of_not_mem hnd.1]
          simp [boolCount]
        | false =>
          rw [boolAttrs_cons_false, countP_boolAttrs_of_not_mem hnd.1]
          rfl
      | null =>
        rw [boolAttrs_cons_null, countP_boolAttrs_of_not_mem hnd.1]
        rfl
    · have hkey : (key == k) = false := by
        refine beq_false_of_ne (fun hkk => hnd.1 ?_)
        exact hkk ▸ List.mem_map.mpr ⟨(k, v), hmem, rfl⟩
      cases w with
      | str s =>
        rw [boolAttrs_cons_str]
        exact ih hnd.2 hmem
      | bool b =>
        cases b with
        | true =>
          rw [boolAttrs_cons_true, List.countP_cons, ih hnd.2 hmem]
          simp [hkey]
        | false =>
          rw [boolAttrs_cons_false]
          exact ih hnd.2 hmem
      | null =>
        rw [boolAttrs_cons_null]
        exact ih hnd.2 hmem

/-- The number of output fragments of `flatatt` naming the key `k`, for an
attribute list with distinct keys holding `(k, v)`: one fragment when `v`
renders, none when `v` is `False` or `None`. -/
theorem countP_flatattEntries {a : AttrList} {k : String} {v : AttrVal}
    (hnd : (a.map Prod.fst).Nodup) (hm : (k, v) ∈ a) :
    (flatattEntries a).countP (fun e => e.key == k) = renderedCount v := by
  unfold flatattEntries
  rw [List.countP_append]
  have h1 : ((sortB kvLe (kvAttrs a)).map (fun p => Entry.kv p.1 p.2)).countP
      (fun e => e.key == k) = (kvAttrs a).countP (fun p => p.1 == k) := by
    rw [List.countP_map]
    exact (sortB_perm kvLe (kvAttrs a)).countP_eq _
  have h2 : ((sortB keyLe (boolAttrs a)).map Entry.bare).countP
      (fun e => e.key == k) = (boolAttrs a).countP (fun s => s == k) := by
    rw [List.countP_map]
    exact (sortB_perm keyLe (boolAttrs a)).countP_eq _
  rw [h1, h2, countP_kvAttrs hnd hm, countP_boolAttrs hnd hm]
  cases v with
  | str s => rfl
  | bool b => cases b <;> rfl
  | null => rfl

/-- Every key named by a `flatatt` output fragment comes from an entry of
the attribute list whose value renders (a string or the boolean `True`). -/
theorem mem_key_flatattEntries {a : AttrList} {k : String}
    (h : k ∈ (flatattEntries a).map Entry.key) :
    ∃ v, (k, v) ∈ a ∧ ((∃ s, v = AttrVal.str s) ∨ v = AttrVal.bool true) := by
  rw [List.mem_map] at h
  obtain ⟨e, he, hek⟩ := h
  rw [flatattEntries, List.mem_append] at he
  rcases he with he | he
  · rw [List.mem_map] at he
    obtain ⟨p, hp, hpe⟩ := he
    obtain ⟨pk, pv⟩ := p
    subst hpe
    simp only [Entry.key] at hek
    subst hek
    have hp' : (pk, pv) ∈ kvAttrs a := (sortB_perm kvLe (kvAttrs a)).mem_iff.mp hp
    rw [kvAttrs, List.mem_filterMap] at hp'
    obtain ⟨q, hq, hqp⟩ := hp'
    obtain ⟨qk, qv⟩ := q
    cases qv with
    | str s =>
      simp only [Option.some.injEq, Prod.mk.injEq] at hqp
      obtain ⟨hq1, hq2⟩ := hqp
      subst hq1
      exact ⟨AttrVal.str s, hq, Or.inl ⟨s, rfl⟩⟩
    | bool b => cases b <;> simp at hqp
    | null => simp at hqp
  · rw [List.mem_map] at he
    obtain ⟨p, hp, hpe⟩ := he
    subst hpe
    simp only [Entry.key] at hek
    subst hek
    have hp' : p ∈ boolAttrs a := (sortB_perm keyLe (boolAttrs a)).mem_iff.mp hp
    rw [boolAttrs, List.mem_filterMap] at hp'
    obtain ⟨q, hq, hqp⟩ := hp'
    obtain ⟨qk, qv⟩ := q
    cases qv with
    | str s => simp at hqp
    | bool b =>
      cases b with
      | false => simp at hqp
      | true =>
        simp only [Option.some.injEq] at hqp
        subst hqp
        exact ⟨AttrVal.bool true, hq, Or.inr rfl⟩
    | null => simp at hqp

/-- Membership transfers into the `flatatt` output fragments: a `True`
boolean attribute yields its bare-name fragment, a string attribute its
`key="value"` fragment. -/
theorem bare_mem_flatattEntries {a : AttrList} {k : String}
    (hm : (k, AttrVal.bool true) ∈ a) : Entry.bare k ∈ flatattEntries a := by
  rw [flatattEntries, List.mem_append]
  right
  rw [List.mem_map]
  refine ⟨k, ?_, rfl⟩
  rw [(sortB_perm keyLe (boolAttrs a)).mem_iff]
  rw [boolAttrs, List.mem_filterMap]
  exact ⟨(k, AttrVal.bool true), hm, rfl⟩

theorem kv_mem_flatattEntries {a : AttrList} {k s : String}
    (hm : (k, AttrVal.str s) ∈ a) : Entry.kv k s ∈ flatattEntries a := by
  rw [flatattEntries, List.mem_append]
  left
  rw [List.mem_map]
  refine ⟨(k, s), ?_, rfl⟩
  rw [(sortB_perm kvLe (kvAttrs a)).mem_iff]
  rw [kvAttrs, List.mem_filterMap]
  exact ⟨(k, AttrVal.str s), hm, rfl⟩

/-! ## Substring facts -/

theorem strContains_append_mid (a m b : String) : strContains (a ++ m ++ b) m := by
  unfold strContains
  refine ⟨a.toList, b.toList, ?_⟩
  simp

end EasyIcons

open EasyIcons

/-! ## Claim theorems -/

/-- Claim C2: for every default-attribute mapping `D` (the configured
`attrs`) and call-site mapping `C`, `_attrs` with the defaults flag
enabled produces the merged mapping in which every key of `C` fully
replaces a same-named key of `D`, while keys of `D` absent from `C`
survive; with the flag disabled, only keys of `C` are rendered and no key
of `D` appears. -/
theorem attribute_builder_merge (cfg : FlatConfig) (C : AttrList)
    (hCd : C.lookup "defaults" = Option.none) :
    (∀ k v, C.lookup k = some v →
      (attrsDict cfg (C ++ [("defaults", AttrVal.bool true)])).lookup k = some v)
    ∧ (∀ k, C.lookup k = Option.none → k ≠ "defaults" →
      (attrsDict cfg (C ++ [("defaults", AttrVal.bool true)])).lookup k
        = cfg.attrs.lookup k)
    ∧ (∀ k, k ∈ (flatattEntries
        (attrsDict cfg (C ++ [("defaults", AttrVal.bool false)]))).map Entry.key →
      ∃ v, C.lookup k = some v) := by
  have hkw : ∀ b : Bool,
      ((C ++ [("defaults", AttrVal.bool b)]).lookup "defaults")
        = some (AttrVal.bool b) := by
    intro b
    rw [lookup_append_eq, hCd]
    simp [List.lookup]
  have hdictT : attrsDict cfg (C ++ [("defaults", AttrVal.bool true)])
      = dictUpdate cfg.attrs (C ++ [("defaults", AttrVal.bool true)]) := by
    unfold attrsDict
    rw [hkw true]
    rfl
  have hdictF : attrsDict cfg (C ++ [("defaults", AttrVal.bool false)])
      = C ++ [("defaults", AttrVal.bool false)] := by
    unfold attrsDict
    rw [hkw false]
    rfl
  refine ⟨?_, ?_, ?_⟩
  · intro k v hkv
    rw [hdictT, lookup_dictUpdate]
    have hk : (C ++ [("defaults", AttrVal.bool true)]).lookup k = some v := by
      rw [lookup_append_eq, hkv]
    rw [hk]
  · intro k hkC hkd
    rw [hdictT, lookup_dictUpdate]
    have hk : (C ++ [("defaults", AttrVal.bool true)]).lookup k = Option.none := by
      rw [lookup_append_eq, hkC]
      simp [List.lookup, beq_false_of_ne hkd]
    rw [hk]
  · intro k hk
    rw [hdictF] at hk
    obtain ⟨v, hv, hrend⟩ := mem_key_flatattEntries hk
    rcases List.mem_append.mp hv with hv | hv
    · exact exists_lookup_eq_some_of_mem hv
    · simp only [List.mem_singleton] at hv
      cases hv
      rcases hrend with ⟨s, hs⟩ | hs <;> cases hs

/-- Claim C2 witness: the claim's own example — defaults
`{class: icon, height: 1em}`, call attributes
`{class: custom, height: 2em}` — merges to class `custom` and height
`2em` with defaults enabled, and renders only the call-site keys with
defaults disabled. -/
theorem attribute_builder_merge_witness :
    (attrsDict { attrs := [("class", AttrVal.str "icon"), ("height", AttrVal.str "1em")] }
        ([("class", AttrVal.str "custom"), ("height", AttrVal.str "2em")] ++
          [("defaults", AttrVal.bool true)])).lookup "class"
      = some (AttrVal.str "custom")
    ∧ (attrsDict { attrs := [("class", AttrVal.str "icon"), ("height", AttrVal.str "1em")] }
        ([("class", AttrVal.str "custom"), ("height", AttrVal.str "2em")] ++
          [("defaults", AttrVal.bool true)])).lookup "height"
      = some (AttrVal.str "2em") :=
  ⟨(attribute_builder_merge _ _ (by decide)).1 "class" _ (by decide),
   (attribute_builder_merge _ _ (by decide)).1 "height" _ (by decide)⟩

/-- Claim C9: in the rendered attribute string (the concatenation of the
output fragments), an attribute key with distinct keys appears exactly
once when its value renders; a `True` value renders as the bare attribute
name with no `="value"` part; a `False` or `None` value is omitted
entirely. -/
theorem rendered_attrs_key_occurrences (a : AttrList) (k : String) (v : AttrVal)
    (hnd : (a.map Prod.fst).Nodup) (hm : (k, v) ∈ a) :
    flatatt a = String.join ((flatattEntries a).map renderEntry)
    ∧ (flatattEntries a).countP (fun e => e.key == k) = renderedCount v
    ∧ (v = AttrVal.bool true →
        Entry.bare k ∈ flatattEntries a
        ∧ renderEntry (Entry.bare k) = " " ++ htmlEscape k)
    ∧ (∀ s, v = AttrVal.str s →
        Entry.kv k s ∈ flatattEntries a
        ∧ renderEntry (Entry.kv k s) = " " ++ htmlEscape k ++ "=\"" ++ htmlEscape s ++ "\"")
    ∧ ((v = AttrVal.bool false ∨ v = AttrVal.null) →
        ∀ e ∈ flatattEntries a, e.key ≠ k) := by
  refine ⟨rfl, countP_flatattEntries hnd hm, ?_, ?_, ?_⟩
  · intro hv
    subst hv
    exact ⟨bare_mem_flatattEntries hm, rfl⟩
  · intro s hv
    subst hv
    exact ⟨kv_mem_flatattEntries hm, rfl⟩
  · intro hv e he hek
    have h1 : 0 < (flatattEntries a).countP (fun e => e.key == k) := by
      refine List.countP_pos_iff.mpr ⟨e, he, ?_⟩
      simp [hek]
    rw [countP_flatattEntries hnd hm] at h1
    rcases hv with hv | hv <;> subst hv <;> exact absurd h1 (by decide)

/-- Claim C9 witness: in
`{class: icon, hidden: True, x: None, d: False}` the key `hidden`
renders exactly once as a bare name, `class` exactly once as a pair, and
`x`, `d` are omitted. -/
theorem rendered_attrs_key_occurrences_witness :
    (flatattEntries [("class", AttrVal.str "icon"), ("hidden", AttrVal.bool true),
        ("x", AttrVal.null), ("d", AttrVal.bool false)]).countP
      (fun e => e.key == "hidden") = renderedCount (AttrVal.bool true)
    ∧ (flatattEntries [("class", AttrVal.str "icon"), ("hidden", AttrVal.bool true),
        ("x", AttrVal.null), ("d", AttrVal.bool false)]).countP
      (fun e => e.key == "x") = renderedCount AttrVal.null :=
  ⟨(rendered_attrs_key_occurrences _ "hidden" _ (by decide) (by decide)).2.1,
   (rendered_attrs_key_occurrences _ "x" _ (by decide) (by decide)).2.1⟩

/-- Claim C8 (code bug): the template tag's `DEFAULTS.update(kwargs)`
updates the very mapping stored on the settings when
`easy_icons_DEFAULTS` is configured — with defaults `{height: 1em}` and a
call passing `width=2em`, the settings mapping afterwards holds the extra
`width` key, a caller-visible mutation of the default-attribute mapping. -/
theorem templatetag_mutates_settings :
    (templatetagIcon { easy_icons_DEFAULTS := some [("height", AttrVal.str "1em")] }
        (fun p => if p = "icons/home.svg" then some "<svg><path/></svg>" else Option.none)
        "home" false [("width", AttrVal.str "2em")]).2
      = { easy_icons_DEFAULTS :=
            some [("height", AttrVal.str "1em"), ("width", AttrVal.str "2em")] }
    ∧ (templatetagIcon { easy_icons_DEFAULTS := some [("height", AttrVal.str "1em")] }
        (fun p => if p = "icons/home.svg" then some "<svg><path/></svg>" else Option.none)
        "home" false [("width", AttrVal.str "2em")]).2
      ≠ { easy_icons_DEFAULTS := some [("height", AttrVal.str "1em")] } := by
  decide

/-- Claim C10 counterexample: the claim says the delegated name is the
icon name with its `.svg` suffix stripped, but the code removes every
occurrence of `.svg`: for the name `a.svg.b.svg` the provider delegates
to the inline-SVG renderer with `a.b`, not with `a.svg.b`, so the output
differs from what suffix stripping would load. -/
theorem provider_svg_suffix_counterexample :
    pyProvider { attrs := [] }
      (fun p => if p = "icons/a.b.svg" then some "<svg>AB</svg>"
        else if p = "icons/a.svg.b.svg" then some "<svg>XY</svg>" else Option.none)
      "a.svg.b.svg" []
    = pySvg { attrs := [] }
      (fun p => if p = "icons/a.b.svg" then some "<svg>AB</svg>"
        else if p = "icons/a.svg.b.svg" then some "<svg>XY</svg>" else Option.none)
      "a.b" []
    ∧ pyProvider { attrs := [] }
      (fun p => if p = "icons/a.b.svg" then some "<svg>AB</svg>"
        else if p = "icons/a.svg.b.svg" then some "<svg>XY</svg>" else Option.none)
      "a.svg.b.svg" []
    ≠ pySvg { attrs := [] }
      (fun p => if p = "icons/a.b.svg" then some "<svg>AB</svg>"
        else if p = "icons/a.svg.b.svg" then some "<svg>XY</svg>" else Option.none)
      "a.svg.b" [] := by
  decide

/-- Claim C10 (amended): for every icon name ending in `.svg`, the
provider emits no class-based tag: it removes every occurrence of the
substring `.svg` from the name (Python `str.replace`, not suffix
stripping) and delegates the call, with the same attributes, to the
inline-SVG renderer — also when the name is reached through alias
resolution in the top-level `icon` call with the provider selected as the
default renderer. -/
theorem provider_svg_delegation (cfg : FlatConfig) (env : TemplateEnv) (name : String)
    (kwargs : AttrList) (h : pyEndsWith name ".svg" = true) :
    pyProvider cfg env name kwargs = pySvg cfg env (pyReplace name ".svg" "") kwargs
    ∧ (∀ a n, cfg.aliases.lookup a = some n → pyEndsWith n ".svg" = true →
        kwargs.lookup "renderer" = Option.none → cfg.default_renderer = "provider" →
        pyIcon cfg env a kwargs = pySvg cfg env (pyReplace n ".svg" "") kwargs) := by
  constructor
  · unfold pyProvider
    rw [h]
    simp
  · intro a n ha hn hr hd
    have h1 : pyIcon cfg env a kwargs = pyProvider cfg env n kwargs := by
      unfold pyIcon
      rw [ha, hr, hd, removeKey_eq_of_lookup_none hr]
      rw [if_neg (by decide : ¬("provider" = "sprites")), if_pos rfl]
      rfl
    rw [h1]
    unfold pyProvider
    rw [hn]
    simp

/-- Claim C10 witness: `heart.svg` (directly, and through the alias
`fav → heart.svg` in `icon`) is delegated to the svg renderer with the
`.svg` text removed. -/
theorem provider_svg_delegation_witness :
    pyEndsWith "heart.svg" ".svg" = true
    ∧ pyProvider { attrs := [], aliases := [("fav", "heart.svg")] }
        (fun _ => Option.none) "heart.svg" []
      = pySvg { attrs := [], aliases := [("fav", "heart.svg")] }
        (fun _ => Option.none) (pyReplace "heart.svg" ".svg" "") []
    ∧ pyIcon { attrs := [], aliases := [("fav", "heart.svg")] }
        (fun _ => Option.none) "fav" []
      = pySvg { attrs := [], aliases := [("fav", "heart.svg")] }
        (fun _ => Option.none) (pyReplace "heart.svg" ".svg" "") [] :=
  ⟨by decide,
   (provider_svg_delegation _ _ "heart.svg" [] (by decide)).1,
   (provider_svg_delegation _ _ "heart.svg" [] (by decide)).2 "fav" "heart.svg"
     (by decide) (by decide) rfl rfl⟩

open SpecModel

/-- Claim C1: for every icon name absent from the selected renderer's
icon-name mapping, the lookup entry point with fail-silently disabled
fails with an IconNotFound error whose message mentions the requested
name (and the renderer, and the available names), and with fail-silently
enabled returns the empty string. -/
theorem icon_lookup_missing (rendererName : String) (icons : List (String × String))
    (renderBody : String → String) (name : String)
    (h : icons.lookup name = Option.none) :
    iconLookup false rendererName icons renderBody name
      = .error (.iconNotFound (notFoundMsg rendererName icons name))
    ∧ strContains (notFoundMsg rendererName icons name) name
    ∧ iconLookup true rendererName icons renderBody name = .ok "" := by
  refine ⟨?_, ?_, ?_⟩
  · unfold iconLookup getIcon
    rw [h]
    rfl
  · unfold strContains notFoundMsg
    exact ⟨"Icon '".toList,
      ("' not listed in available icons for " ++ rendererName ++
        ". Available icons: " ++ availableNames icons).toList, by simp⟩
  · unfold iconLookup getIcon
    rw [h]
    rfl

/-- Claim C1 witness: `icon("missing")` against a renderer knowing only
`home` raises IconNotFound mentioning `missing`, or returns `""` when
failing silently. -/
theorem icon_lookup_missing_witness :
    iconLookup false "ProviderRenderer" [("home", "fa-home")] (fun s => s) "missing"
      = .error (.iconNotFound (notFoundMsg "ProviderRenderer" [("home", "fa-home")] "missing"))
    ∧ strContains (notFoundMsg "ProviderRenderer" [("home", "fa-home")] "missing") "missing"
    ∧ iconLookup true "ProviderRenderer" [("home", "fa-home")] (fun s => s) "missing"
      = .ok "" :=
  icon_lookup_missing "ProviderRenderer" [("home", "fa-home")] (fun s => s) "missing" (by decide)

/-- Claim C4: for every icon-table entry `n ↦ c` and caller class value
`x`, the class-provider renderer emits
`<{tag} class="{c} {x}" {attrs}></{tag}>` — `tag` taken from the per-call
override when present, else from the renderer, whose construction default
is `i` — and the class attribute value `c ++ " " ++ x` contains both the
resolved class token `c` and `x`, with `x` appended after `c`, never
replacing it. -/
theorem provider_class_additive (r : ProviderRenderer) (n c x : String)
    (useDefaults : Bool) (attrs : AttrList)
    (hres : r.icons.lookup n = some c)
    (hx : attrs.lookup "class" = some (AttrVal.str x)) :
    providerRender r n useDefaults attrs
      = .ok ("<" ++ (match attrs.lookup "tag" with
            | some v => pyStr v
            | Option.none => r.tag) ++
          " class=\"" ++ (c ++ " " ++ x) ++ "\" " ++
          buildAttrs r.default_attrs useDefaults
            (removeKey "class" (removeKey "tag" attrs)) ++
          "></" ++ (match attrs.lookup "tag" with
            | some v => pyStr v
            | Option.none => r.tag) ++ ">")
    ∧ strContains (c ++ " " ++ x) c
    ∧ strContains (c ++ " " ++ x) x
    ∧ ({} : ProviderRenderer).tag = "i" := by
  refine ⟨?_, ?_, ?_, rfl⟩
  · unfold providerRender getIcon
    rw [hres, hx]
    simp [Except.map, pyStr, String.append_assoc]
  · unfold strContains
    exact ⟨[], (" " ++ x).toList, by simp⟩
  · unfold strContains
    exact ⟨(c ++ " ").toList, [], by simp⟩

/-- Claim C4 witness: the claim's example — icon table
`{heart: fa-heart}`, caller class `large` — yields a class value holding
both `fa-heart` and `large`, in that order. -/
theorem provider_class_additive_witness :
    providerRender { icons := [("heart", "fa-heart")] } "heart" true
        [("class", AttrVal.str "large")]
      = .ok ("<" ++ "i" ++ " class=\"" ++ ("fa-heart" ++ " " ++ "large") ++ "\" " ++
          buildAttrs [] true (removeKey "class" (removeKey "tag"
            [("class", AttrVal.str "large")])) ++ "></" ++ "i" ++ ">")
    ∧ strContains ("fa-heart" ++ " " ++ "large") "fa-heart"
    ∧ strContains ("fa-heart" ++ " " ++ "large") "large" :=
  ⟨(provider_class_additive { icons := [("heart", "fa-heart")] } "heart" "fa-heart"
      "large" true [("class", AttrVal.str "large")] (by decide) (by decide)).1,
   (provider_class_additive { icons := [("heart", "fa-heart")] } "heart" "fa-heart"
      "large" true [("class", AttrVal.str "large")] (by decide) (by decide)).2.1,
   (provider_class_additive { icons := [("heart", "fa-heart")] } "heart" "fa-heart"
      "large" true [("class", AttrVal.str "large")] (by decide) (by decide)).2.2.1⟩

/-- Claim C5: constructing a sprite renderer with the sprite URL missing
or empty fails with a configuration error at construction time, and any
successfully constructed sprite renderer carries a non-empty sprite URL,
so it can never render with an absent one. -/
theorem sprites_requires_url (icons : List (String × String)) (dattrs : AttrList) :
    mkSpritesRenderer Option.none icons dattrs
      = .error (.missingSpriteUrl "SpritesRenderer requires 'sprite_url' keyword argument")
    ∧ mkSpritesRenderer (some "") icons dattrs
      = .error (.missingSpriteUrl "SpritesRenderer requires 'sprite_url' keyword argument")
    ∧ (∀ u r, mkSpritesRenderer u icons dattrs = .ok r → r.sprite_url ≠ "") := by
  refine ⟨rfl, rfl, ?_⟩
  intro u r h
  cases u with
  | none => simp [mkSpritesRenderer] at h
  | some s =>
    have h' : (if s = "" then
        (.error (.missingSpriteUrl "SpritesRenderer requires 'sprite_url' keyword argument")
          : Except ConfigError SpritesRenderer)
        else .ok { sprite_url := s, icons := icons, default_attrs := dattrs }) = .ok r := h
    by_cases hs : s = ""
    · rw [if_pos hs] at h'
      simp at h'
    · rw [if_neg hs] at h'
      injection h' with h''
      rw [← h'']
      exact hs

/-- Claim C5 witness: construction without a URL fails; a renderer
constructed with `/icons.svg` carries that non-empty URL. -/
theorem sprites_requires_url_witness :
    mkSpritesRenderer Option.none [] []
      = .error (.missingSpriteUrl "SpritesRenderer requires 'sprite_url' keyword argument")
    ∧ ({ sprite_url := "/icons.svg" } : SpritesRenderer).sprite_url ≠ "" :=
  ⟨(sprites_requires_url [] []).1,
   (sprites_requires_url [] []).2.2 (some "/icons.svg")
     { sprite_url := "/icons.svg" } rfl⟩

/-- Claim C6: whenever the fetched SVG content contains no `<svg` tag,
the inline-SVG renderer's render fails with an InvalidSvg condition
instead of returning markup built from the invalid content. -/
theorem svg_invalid_content (r : SvgRenderer) (env : TemplateEnv)
    (name file content : String) (useDefaults : Bool) (attrs : AttrList)
    (hres : r.icons.lookup name = some file)
    (henv : env (r.svg_dir ++ "/" ++ file ++ ".svg") = some content)
    (hcontent : containsB content "<svg" = false) :
    svgRender r env name useDefaults attrs
      = .error (.invalidSvg "No <svg> tag found in SVG content")
    ∧ injectSvgAttrs r content useDefaults attrs
      = .error (.invalidSvg "No <svg> tag found in SVG content") := by
  have hinj : injectSvgAttrs r content useDefaults attrs
      = .error (.invalidSvg "No <svg> tag found in SVG content") := by
    unfold injectSvgAttrs
    rw [hcontent]
    simp
  refine ⟨?_, hinj⟩
  have hstep : svgRender r env name useDefaults attrs
      = match env (r.svg_dir ++ "/" ++ file ++ ".svg") with
        | Option.none =>
          .error (.templateDoesNotExist (r.svg_dir ++ "/" ++ file ++ ".svg"))
        | some c => injectSvgAttrs r c useDefaults attrs := by
    unfold svgRender getIcon
    rw [hres]
  rw [hstep, henv]
  exact hinj

/-- Claim C6 witness: content `<div>Not an SVG</div>` makes the render
fail with InvalidSvg. -/
theorem svg_invalid_content_witness :
    svgRender { icons := [("plot", "chart")] }
      (fun p => if p = "icons/chart.svg" then some "<div>Not an SVG</div>" else Option.none)
      "plot" true []
      = .error (.invalidSvg "No <svg> tag found in SVG content") :=
  (svg_invalid_content { icons := [("plot", "chart")] }
    (fun p => if p = "icons/chart.svg" then some "<div>Not an SVG</div>" else Option.none)
    "plot" "chart" "<div>Not an SVG</div>" true []
    (by decide) (by decide) (by decide)).1

/-- Claim C7: for every icon name `n` resolved to sprite symbol `s` and
configured sprite URL `u`, the sprite renderer emits exactly
`<svg {attrs}><use href="{u}#{s}"></use></svg>` — the merged attributes
on the outer `svg` element, the `use` element's `href` equal to `u`
concatenated with `#` and `s`, for every `u`, with no inspection of a
fragment already present in `u`. -/
theorem sprites_emission (r : SpritesRenderer) (n s : String)
    (useDefaults : Bool) (attrs : AttrList)
    (hres : r.icons.lookup n = some s) :
    spritesRender r n useDefaults attrs
      = .ok ("<svg " ++ buildAttrs r.default_attrs useDefaults attrs ++
          "><use href=\"" ++ r.sprite_url ++ "#" ++ s ++ "\"></use></svg>") := by
  unfold spritesRender getIcon
  rw [hres]
  rfl

/-- Claim C7 witness: a sprite URL that already carries a fragment is
concatenated blindly, producing `/icons.svg#base#warning-triangle`. -/
theorem sprites_emission_witness :
    spritesRender
        { sprite_url := "/icons.svg#base", icons := [("warning", "warning-triangle")] }
        "warning" false []
      = .ok "<svg ><use href=\"/icons.svg#base#warning-triangle\"></use></svg>" := by
  rw [sprites_emission
    { sprite_url := "/icons.svg#base", icons := [("warning", "warning-triangle")] }
    "warning" "warning-triangle" false [] (by decide)]
  decide

/-! ## Registry lemmas -/

theorem regStep_table_mono {cname : String} {st : Registry} {p : String × String}
    {k o : String} (h : st.table.lookup k = some o) :
    (regStep cname st p).table.lookup k = some o := by
  unfold regStep
  cases hl : st.table.lookup p.1 with
  | some owner => exact h
  | none =>
    rw [lookup_append_eq (β := String), h]

theorem foldl_regStep_table_mono (icons : List (String × String)) (cname : String)
    {st : Registry} {k o : String} (h : st.table.lookup k = some o) :
    ((icons.foldl (regStep cname) st).table.lookup k) = some o := by
  induction icons generalizing st with
  | nil => exact h
  | cons p l ih => exact ih (regStep_table_mono h)

theorem regStep_collisions_mono {cname : String} {st : Registry} {p : String × String}
    {c : String × String × String} (h : c ∈ st.collisions) :
    c ∈ (regStep cname st p).collisions := by
  unfold regStep
  cases hl : st.table.lookup p.1 with
  | some owner => exact List.mem_append.mpr (Or.inl h)
  | none => exact h

theorem foldl_regStep_collisions_mono (icons : List (String × String)) (cname : String)
    {st : Registry} {c : String × String × String} (h : c ∈ st.collisions) :
    c ∈ (icons.foldl (regStep cname) st).collisions := by
  induction icons generalizing st with
  | nil => exact h
  | cons p l ih => exact ih (regStep_collisions_mono h)

theorem regStep_keeps_none {cname : String} {st : Registry} {p : String × String}
    {k : String} (hne : p.1 ≠ k) (h : st.table.lookup k = Option.none) :
    (regStep cname st p).table.lookup k = Option.none := by
  unfold regStep
  cases hl : st.table.lookup p.1 with
  | some owner => exact h
  | none =>
    rw [lookup_append_eq (β := String), h]
    simp [List.lookup, beq_false_of_ne (Ne.symm hne)]

theorem foldl_regStep_keeps_none (icons : List (String × String)) (cname : String)
    {st : Registry} {k : String} (hmem : k ∉ icons.map Prod.fst)
    (h : st.table.lookup k = Option.none) :
    ((icons.foldl (regStep cname) st).table.lookup k) = Option.none := by
  induction icons generalizing st with
  | nil => exact h
  | cons p l ih =>
    simp only [List.map_cons, List.mem_cons] at hmem
    push_neg at hmem
    exact ih hmem.2 (regStep_keeps_none (fun hp => hmem.1 hp.symm) h)

theorem foldl_regStep_inserts (icons : List (String × String)) (cname : String)
    {st : Registry} {k : String} (h : st.table.lookup k = Option.none)
    (hmem : k ∈ icons.map Prod.fst) :
    ((icons.foldl (regStep cname) st).table.lookup k) = some cname := by
  induction icons generalizing st with
  | nil => cases hmem
  | cons p l ih =>
    by_cases hpk : p.1 = k
    · have hstep : (regStep cname st p).table.lookup k = some cname := by
        unfold regStep
        rw [hpk, h]
        rw [lookup_append_eq (β := String), h]
        simp [List.lookup]
      exact foldl_regStep_table_mono l cname hstep
    · rcases List.mem_cons.mp hmem with heq | hmem'
      · exact absurd heq.symm hpk
      · exact ih (regStep_keeps_none hpk h) hmem'

theorem foldl_regStep_collides (icons : List (String × String)) (cname : String)
    {st : Registry} {k o : String} (h : st.table.lookup k = some o)
    (hmem : k ∈ icons.map Prod.fst) :
    (k, o, cname) ∈ ((icons.foldl (regStep cname) st).collisions) := by
  induction icons generalizing st with
  | nil => cases hmem
  | cons p l ih =>
    by_cases hpk : p.1 = k
    · have hstep : (k, o, cname) ∈ (regStep cname st p).collisions := by
        unfold regStep
        rw [hpk, h]
        exact List.mem_append.mpr (Or.inr (List.mem_singleton.mpr rfl))
      exact foldl_regStep_collisions_mono l cname hstep
    · rcases List.mem_cons.mp hmem with heq | hmem'
      · exact absurd heq.symm hpk
      · exact ih (regStep_table_mono h) hmem'

theorem foldl_registerConfig_table_mono (cfgs : List RendererConfig)
    {st : Registry} {k o : String} (h : st.table.lookup k = some o) :
    ((cfgs.foldl registerConfig st).table.lookup k) = some o := by
  induction cfgs generalizing st with
  | nil => exact h
  | cons c l ih => exact ih (foldl_regStep_table_mono c.icons c.name h)

theorem foldl_registerConfig_collisions_mono (cfgs : List RendererConfig)
    {st : Registry} {c : String × String × String} (h : c ∈ st.collisions) :
    c ∈ (cfgs.foldl registerConfig st).collisions := by
  induction cfgs generalizing st with
  | nil => exact h
  | cons cfg l ih => exact ih (foldl_regStep_collisions_mono cfg.icons cfg.name h)

theorem foldl_registerConfig_keeps_none (cfgs : List RendererConfig)
    {st : Registry} {k : String} (hmem : ∀ c ∈ cfgs, k ∉ c.icons.map Prod.fst)
    (h : st.table.lookup k = Option.none) :
    ((cfgs.foldl registerConfig st).table.lookup k) = Option.none := by
  induction cfgs generalizing st with
  | nil => exact h
  | cons c l ih =>
    exact ih (fun d hd => hmem d (List.mem_cons.mpr (Or.inr hd)))
      (foldl_regStep_keeps_none c.icons c.name (hmem c (List.mem_cons.mpr (Or.inl rfl))) h)

/-- Claim C3: in the registry build order — the configuration literally
named `default` first if present, then the remaining configurations in
declaration order — if `A` is the first configuration defining the icon
name `n` and `B` a later configuration also defining `n`, the registry
resolves `n` to `A` (first-writer-wins) and logs the duplicate as a
collision naming the winner `A` and the shadowed `B`, without
overwriting. -/
theorem registry_first_writer_wins (cfgs : List RendererConfig)
    (pre mid post : List RendererConfig) (A B : RendererConfig) (n : String)
    (horder : buildOrder cfgs = pre ++ A :: (mid ++ B :: post))
    (hA : n ∈ A.icons.map Prod.fst) (hB : n ∈ B.icons.map Prod.fst)
    (hpre : ∀ c ∈ pre, n ∉ c.icons.map Prod.fst) :
    (buildRegistry cfgs).table.lookup n = some A.name
    ∧ (n, A.name, B.name) ∈ (buildRegistry cfgs).collisions := by
  unfold buildRegistry
  rw [horder, List.foldl_append, List.foldl_cons, List.foldl_append, List.foldl_cons]
  have h1 : ((pre.foldl registerConfig { table := [], collisions := [] }).table.lookup n)
      = Option.none :=
    foldl_registerConfig_keeps_none pre hpre rfl
  have h2 : ((registerConfig
      (pre.foldl registerConfig { table := [], collisions := [] }) A).table.lookup n)
      = some A.name :=
    foldl_regStep_inserts A.icons A.name h1 hA
  have h3 := foldl_registerConfig_table_mono mid h2
  have h4tab := foldl_regStep_table_mono B.icons B.name h3
  have h4coll := foldl_regStep_collides B.icons B.name h3 hB
  exact ⟨foldl_registerConfig_table_mono post h4tab,
    foldl_registerConfig_collisions_mono post h4coll⟩

/-- Claim C3 witness: with a `fontawesome` configuration declared before
the `default` one, both defining `star`, the build order puts `default`
first, the registry resolves `star` to `default`, and the collision log
names `default` as winner and `fontawesome` as shadowed. -/
theorem registry_first_writer_wins_witness :
    (buildRegistry
        [⟨"fontawesome", [("star", "fas fa-star"), ("heart", "fas fa-heart")]⟩,
         ⟨"default", [("star", "star.svg")]⟩]).table.lookup "star" = some "default"
    ∧ ("star", "default", "fontawesome") ∈ (buildRegistry
        [⟨"fontawesome", [("star", "fas fa-star"), ("heart", "fas fa-heart")]⟩,
         ⟨"default", [("star", "star.svg")]⟩]).collisions :=
  registry_first_writer_wins
    [⟨"fontawesome", [("star", "fas fa-star"), ("heart", "fas fa-heart")]⟩,
     ⟨"default", [("star", "star.svg")]⟩]
    [] [] [] ⟨"default", [("star", "star.svg")]⟩
    ⟨"fontawesome", [("star", "fas fa-star"), ("heart", "fas fa-heart")]⟩
    "star" (by decide) (by decide) (by decide)
    (fun c hc => absurd hc (List.not_mem_nil c))
